import Mathlib

/-!
Verification of the two-stage image-classification service (`index.js`).

The embedding models:
* probabilities as rationals,
* JavaScript objects (whose string keys iterate in first-insertion order)
  as association lists `List (String × ℚ)`,
* the remote classifier as a function from endpoint URL, prediction key and
  image URL to either an error or a response, and
* the `/classify` Express handler as a pure function from the request body,
  the resolved configuration and the remote classifier to an HTTP response.
-/

/-- One `{ tagName, probability }` entry returned by the remote classifier. -/
structure Prediction where
  tagName : String
  probability : ℚ
  deriving DecidableEq, Repr

/-- `{ imageUrl, predictions }` — the normalized per-image result built by
`batchPredict`. -/
structure ImagePrediction where
  imageUrl : String
  predictions : List Prediction
  deriving DecidableEq, Repr

/-- The body of a successful remote-classifier HTTP response: a JSON object
whose `predictions` array may be absent (`resp.data.predictions || []`). -/
structure RemoteResponse where
  predictions : Option (List Prediction)
  deriving DecidableEq, Repr

/-- An axios-style error: `err.response.data` may be absent (network error,
timeout), and `err.message` is a string (possibly empty, hence JS-falsy). -/
structure RemoteError where
  responseData : Option String
  message : String
  deriving DecidableEq, Repr

/-- The remote classifier: endpoint URL → prediction key → image URL →
error or response. -/
def Fetch : Type := String → String → String → Except RemoteError RemoteResponse

/-- `batchPredict(imageUrls, endpointUrl, predictionKey)`: one request per
image URL, normalized to `{ imageUrl, predictions }`; `Promise.all`
semantics — any single failure fails the whole batch, otherwise results are
collected in input order. -/
def batchPredict (imageUrls : List String) (endpointUrl predictionKey : String)
    (fetch : Fetch) : Except RemoteError (List ImagePrediction) :=
  match imageUrls with
  | [] => .ok []
  | imageUrl :: rest =>
    match fetch endpointUrl predictionKey imageUrl with
    | .error e => .error e
    | .ok resp =>
      match batchPredict rest endpointUrl predictionKey fetch with
      | .error e => .error e
      | .ok others =>
        .ok ({ imageUrl := imageUrl,
               predictions := (resp.predictions.getD []).map
                 (fun p => { tagName := p.tagName, probability := p.probability }) } :: others)

/-- `sums[tag]` upsert: `if (!sums[p.tagName]) sums[p.tagName] = 0;
sums[p.tagName] += p.probability;` — adds to an existing key in place
(JS objects keep first-insertion key order) or appends a new key. -/
def addToSums (sums : List (String × ℚ)) (tag : String) (prob : ℚ) :
    List (String × ℚ) :=
  if sums.any (fun e => decide (e.1 = tag)) then
    sums.map (fun e => if e.1 = tag then (e.1, e.2 + prob) else e)
  else
    sums ++ [(tag, prob)]

/-- Inner loop of `averageByTag`: accumulate one prediction into `sums`. -/
def addPrediction (sums : List (String × ℚ)) (p : Prediction) : List (String × ℚ) :=
  addToSums sums p.tagName p.probability

/-- Middle loop of `averageByTag`: accumulate one image's predictions. -/
def addImage (sums : List (String × ℚ)) (img : ImagePrediction) : List (String × ℚ) :=
  img.predictions.foldl addPrediction sums

/-- The `sums` object after the double loop of `averageByTag`. -/
def tagSums (perImage : List ImagePrediction) : List (String × ℚ) :=
  perImage.foldl addImage []

/-- `const n = count || 1` — JS `||` takes the right operand when the count
is `0` (falsy). -/
def jsDivisor (count : Nat) : ℚ :=
  if count = 0 then 1 else (count : ℚ)

/-- `averageByTag(perImage)`: running sum per distinct tag, divided by the
number of images (`count`, the loop iteration count, i.e. the list length),
defensively replaced by 1 when zero. -/
def averageByTag (perImage : List ImagePrediction) : List (String × ℚ) :=
  (tagSums perImage).map (fun e => (e.1, e.2 / jsDivisor perImage.length))

/-- JS object read with a default: `obj[key] ?? d` (also models plain
`obj[key]` reads that feed arithmetic where the key is known present). -/
def jsGetD (m : List (String × ℚ)) (key : String) (d : ℚ) : ℚ :=
  match m.find? (fun e => decide (e.1 = key)) with
  | some e => e.2
  | none => d

/-- The `{ label, probability }` record returned by `getMaxLabel`. -/
structure MaxResult where
  label : Option String
  probability : ℚ
  deriving DecidableEq, Repr

/-- One iteration of the `getMaxLabel` loop: strict `>` comparison, so an
exact tie keeps the earlier best. -/
def maxStep (best : MaxResult) (e : String × ℚ) : MaxResult :=
  if best.probability < e.2 then { label := some e.1, probability := e.2 } else best

/-- `getMaxLabel(probMap)`: fold over `Object.entries` (insertion order)
starting from `bestLabel = null`, `bestProb = -1`. -/
def getMaxLabel (probMap : List (String × ℚ)) : MaxResult :=
  probMap.foldl maxStep { label := none, probability := -1 }

/-- JS string `||`: the empty string is falsy. -/
def jsOrString (a b : String) : String :=
  if a = "" then b else a

/-- `err?.response?.data || err.message || "Unknown error"`. -/
def detailsOf (e : RemoteError) : String :=
  jsOrString (e.responseData.getD "") (jsOrString e.message "Unknown error")

/-- The resolved per-request configuration: three endpoint URLs (after the
env-default fallback) and three credentials (absent when the env var is
unset). -/
structure Config where
  modelNotModelUrl : String
  modelNotModelKey : Option String
  civilianHybridUrl : String
  civilianHybridKey : Option String
  superCommonUrl : String
  superCommonKey : Option String

/-- `!key` for a credential: missing or empty (JS-falsy) string. -/
def keyMissing : Option String → Bool
  | none => true
  | some s => decide (s = "")

/-- The `imageUrls` field of the request body: absent, present but not an
array, or an array of URL strings. -/
inductive ImageUrlsField where
  | missing : ImageUrlsField
  | notArray : ImageUrlsField
  | array : List String → ImageUrlsField
  deriving DecidableEq, Repr

/-- The parsed JSON request body of `POST /classify`. -/
structure RequestBody where
  imageUrls : ImageUrlsField
  deriving DecidableEq, Repr

/-- The `stage1`/`stage2` payload of a successful `/classify` response,
flattened. -/
structure ClassifySuccess where
  imageCount : Nat
  imageUrls : List String
  stage1Predictor : String
  stage1Averages : List (String × ℚ)
  stage1PerImage : List ImagePrediction
  isModel : Bool
  modelProbability : ℚ
  notModelProbability : ℚ
  stage2Predictor : String
  branch : String
  stage2Averages : List (String × ℚ)
  stage2PerImage : List ImagePrediction
  finalLabel : Option String
  finalLabelProbability : ℚ
  highConfidence : Bool
  confidenceThreshold : ℚ
  deriving DecidableEq, Repr

/-- The JSON body of a `/classify` response. -/
inductive ResponseBody where
  | validationError : String → ResponseBody
  | configError : String → ResponseBody
  | serverError : (error : String) → (details : String) → ResponseBody
  | success : ClassifySuccess → ResponseBody
  deriving DecidableEq, Repr

/-- An HTTP response: status code plus JSON body. -/
structure Response where
  status : Nat
  body : ResponseBody
  deriving DecidableEq, Repr

/-- The `POST /classify` handler: validation, credential check, stage 1
(Model vs NOT Model), branch decision, stage 2 (branch-specific predictor),
best-label selection and the 0.95 confidence annotation; any remote failure
is caught and becomes a 500 with the remote payload as `details`.

The JS `const` bindings (`stage1Averages`, `modelProb`, `notModelProb`,
`isModel`, `stage2Url`, `stage2Key`, `predictorName`, `branch`,
`stage2Averages`, `finalResult`, `threshold`) are inlined: `isModel`
stands for `decide (notModelProb ≤ modelProb)`, i.e.
`modelProb >= notModelProb`. -/
def classify (body : RequestBody) (cfg : Config) (fetch : Fetch) : Response :=
  match body.imageUrls with
  | .missing => ⟨400, .validationError "imageUrls must be a non-empty array of URLs"⟩
  | .notArray => ⟨400, .validationError "imageUrls must be a non-empty array of URLs"⟩
  | .array imageUrls =>
    if imageUrls.length = 0 then
      ⟨400, .validationError "imageUrls must be a non-empty array of URLs"⟩
    else if keyMissing cfg.modelNotModelKey || keyMissing cfg.civilianHybridKey
        || keyMissing cfg.superCommonKey then
      ⟨500, .configError
        "Prediction keys not set (MODEL_NOT_MODEL_KEY / CIVILIAN_HYBRID_KEY / SUPERMODEL_COMMON_KEY)"⟩
    else
      match batchPredict imageUrls cfg.modelNotModelUrl (cfg.modelNotModelKey.getD "") fetch with
      | .error e => ⟨500, .serverError "Internal server error" (detailsOf e)⟩
      | .ok stage1PerImage =>
        match batchPredict imageUrls
            (if decide (jsGetD (averageByTag stage1PerImage) "NOT Model" 0
                ≤ jsGetD (averageByTag stage1PerImage) "Model" 0)
              then cfg.superCommonUrl else cfg.civilianHybridUrl)
            (if decide (jsGetD (averageByTag stage1PerImage) "NOT Model" 0
                ≤ jsGetD (averageByTag stage1PerImage) "Model" 0)
              then cfg.superCommonKey.getD "" else cfg.civilianHybridKey.getD "")
            fetch with
        | .error e => ⟨500, .serverError "Internal server error" (detailsOf e)⟩
        | .ok stage2PerImage =>
          ⟨200, .success
            { imageCount := imageUrls.length
              imageUrls := imageUrls
              stage1Predictor := "Model/NOT Model Predictor"
              stage1Averages := averageByTag stage1PerImage
              stage1PerImage := stage1PerImage
              isModel := decide (jsGetD (averageByTag stage1PerImage) "NOT Model" 0
                ≤ jsGetD (averageByTag stage1PerImage) "Model" 0)
              modelProbability := jsGetD (averageByTag stage1PerImage) "Model" 0
              notModelProbability := jsGetD (averageByTag stage1PerImage) "NOT Model" 0
              stage2Predictor :=
                if decide (jsGetD (averageByTag stage1PerImage) "NOT Model" 0
                    ≤ jsGetD (averageByTag stage1PerImage) "Model" 0)
                  then "SuperModel/Common Model Predictor" else "Civilian/Hybrid Predictor"
              branch :=
                if decide (jsGetD (averageByTag stage1PerImage) "NOT Model" 0
                    ≤ jsGetD (averageByTag stage1PerImage) "Model" 0)
                  then "SuperModelCommonModel" else "CivilianHybrid"
              stage2Averages := averageByTag stage2PerImage
              stage2PerImage := stage2PerImage
              finalLabel := (getMaxLabel (averageByTag stage2PerImage)).label
              finalLabelProbability := (getMaxLabel (averageByTag stage2PerImage)).probability
              highConfidence := decide ((95 : ℚ) / 100
                ≤ (getMaxLabel (averageByTag stage2PerImage)).probability)
              confidenceThreshold := (95 : ℚ) / 100 }⟩

/-- The per-image quantity the averaging spec talks about: the image's total
probability mass for a tag (its probability for the tag, `0` when the tag is
absent from the image's predictions). -/
def imageProbFor (tag : String) (img : ImagePrediction) : ℚ :=
  ((img.predictions.filter (fun p => decide (p.tagName = tag))).map
    (fun p => p.probability)).sum

example : averageByTag
    [⟨"a", [⟨"Model", 9/10⟩, ⟨"NOT Model", 1/10⟩]⟩,
     ⟨"b", [⟨"Model", 8/10⟩, ⟨"NOT Model", 2/10⟩]⟩]
    = [("Model", 85/100), ("NOT Model", 15/100)] := by
  simp [averageByTag, tagSums, addImage, addPrediction, addToSums, jsDivisor]
  norm_num

example : getMaxLabel [("Tank", 95/100), ("Car", 95/100)]
    = { label := some "Tank", probability := 95/100 } := by
  norm_num [getMaxLabel, maxStep]

example : getMaxLabel [] = { label := none, probability := -1 } := rfl

/-! ### Lemmas for `batchPredict` -/

theorem batchPredict_map_of_ok (endpointUrl predictionKey : String) (fetch : Fetch)
    (r : String → RemoteResponse) :
    ∀ imageUrls : List String,
      (∀ u ∈ imageUrls, fetch endpointUrl predictionKey u = .ok (r u)) →
      batchPredict imageUrls endpointUrl predictionKey fetch
        = .ok (imageUrls.map (fun u =>
            { imageUrl := u,
              predictions := ((r u).predictions.getD []).map
                (fun p => { tagName := p.tagName, probability := p.probability }) })) := by
  intro imageUrls
  induction imageUrls with
  | nil => intro _; rfl
  | cons u rest ih =>
    intro h
    have hu := h u (List.mem_cons_self u rest)
    have ihr := ih (fun v hv => h v (List.mem_cons_of_mem u hv))
    rw [batchPredict, hu, ihr]
    rfl

theorem batchPredict_error_of_mem (imageUrls : List String)
    (endpointUrl predictionKey : String) (fetch : Fetch) (u : String) (err : RemoteError)
    (hu : u ∈ imageUrls)
    (hf : fetch endpointUrl predictionKey u = .error err) :
    ∃ e, batchPredict imageUrls endpointUrl predictionKey fetch = .error e := by
  induction imageUrls with
  | nil => cases hu
  | cons v rest ih =>
    cases hv : fetch endpointUrl predictionKey v with
    | error e => exact ⟨e, by rw [batchPredict, hv]⟩
    | ok resp =>
      have hur : u ∈ rest := by
        rcases List.mem_cons.mp hu with h | h
        · rw [h, hv] at hf
          cases hf
        · exact h
      obtain ⟨e, he⟩ := ih hur
      refine ⟨e, ?_⟩
      rw [batchPredict, hv, he]

theorem batchPredict_ok_of_fetch_ok (endpointUrl predictionKey : String) (fetch : Fetch) :
    ∀ imageUrls : List String,
      (∀ u ∈ imageUrls, ∃ r, fetch endpointUrl predictionKey u = .ok r) →
      ∃ l, batchPredict imageUrls endpointUrl predictionKey fetch = .ok l := by
  intro imageUrls
  induction imageUrls with
  | nil => exact fun _ => ⟨[], rfl⟩
  | cons u rest ih =>
    intro h
    obtain ⟨r, hr⟩ := h u (List.mem_cons_self u rest)
    obtain ⟨l, hl⟩ := ih (fun v hv => h v (List.mem_cons_of_mem u hv))
    exact ⟨_, by rw [batchPredict, hr, hl]⟩

theorem batchPredict_ok_of_fetch_empty (endpointUrl predictionKey : String) (fetch : Fetch) :
    ∀ imageUrls : List String,
      (∀ u ∈ imageUrls, ∃ r, fetch endpointUrl predictionKey u = .ok r
        ∧ r.predictions.getD [] = []) →
      ∃ l, batchPredict imageUrls endpointUrl predictionKey fetch = .ok l
        ∧ ∀ img ∈ l, img.predictions = [] := by
  intro imageUrls
  induction imageUrls with
  | nil => exact fun _ => ⟨[], rfl, by simp⟩
  | cons u rest ih =>
    intro h
    obtain ⟨r, hr, hre⟩ := h u (List.mem_cons_self u rest)
    obtain ⟨l, hl, hle⟩ := ih (fun v hv => h v (List.mem_cons_of_mem u hv))
    refine ⟨_, by rw [batchPredict, hr, hl], ?_⟩
    intro img himg
    rcases List.mem_cons.mp himg with hh | hh
    · rw [hh]
      simp [hre]
    · exact hle img hh

/-- C6: for every sequence of input URLs whose fetches all succeed, the
Batch Predictor returns exactly one `ImagePrediction` per input URL in input
order; a remote response that omits the predictions list contributes an
empty prediction sequence, not an error. -/
theorem batchPredict_one_per_url (imageUrls : List String)
    (endpointUrl predictionKey : String) (fetch : Fetch) (r : String → RemoteResponse)
    (h : ∀ u ∈ imageUrls, fetch endpointUrl predictionKey u = .ok (r u)) :
    batchPredict imageUrls endpointUrl predictionKey fetch
      = .ok (imageUrls.map (fun u =>
          { imageUrl := u,
            predictions := ((r u).predictions.getD []).map
              (fun p => { tagName := p.tagName, probability := p.probability }) }))
    ∧ ∃ l, batchPredict imageUrls endpointUrl predictionKey fetch = .ok l
        ∧ l.map (fun img => img.imageUrl) = imageUrls
        ∧ l.length = imageUrls.length
        ∧ ∀ u ∈ imageUrls, (r u).predictions = none →
            { imageUrl := u, predictions := [] } ∈ l := by
  have main := batchPredict_map_of_ok endpointUrl predictionKey fetch r imageUrls h
  refine ⟨main, _, main, ?_, by simp, ?_⟩
  · rw [List.map_map]
    exact List.map_id'' (fun u => rfl) imageUrls
  · intro u hu hnone
    refine List.mem_map.mpr ⟨u, hu, ?_⟩
    rw [hnone]
    rfl

/-- Witness for C6: two URLs, the second of which gets a response with no
predictions list; the batch yields one entry per URL in order. -/
theorem batchPredict_one_per_url_w :
    (∀ u ∈ ["a", "b"],
      (fun _ _ v => Except.ok (RemoteResponse.mk
          (if v = "a" then some [⟨"T", 1⟩] else none)) : Fetch) "e" "k" u
        = .ok ((fun v => RemoteResponse.mk
            (if v = "a" then some [⟨"T", 1⟩] else none)) u))
    ∧ (batchPredict ["a", "b"] "e" "k"
        (fun _ _ v => Except.ok (RemoteResponse.mk
          (if v = "a" then some [⟨"T", 1⟩] else none)))
      = .ok ((["a", "b"] : List String).map (fun u =>
          { imageUrl := u,
            predictions := ((((fun v => RemoteResponse.mk
                (if v = "a" then some [⟨"T", 1⟩] else none)) u).predictions).getD []).map
              (fun p => { tagName := p.tagName, probability := p.probability }) }))
    ∧ ∃ l, batchPredict ["a", "b"] "e" "k"
        (fun _ _ v => Except.ok (RemoteResponse.mk
          (if v = "a" then some [⟨"T", 1⟩] else none))) = .ok l
        ∧ l.map (fun img => img.imageUrl) = ["a", "b"]
        ∧ l.length = (["a", "b"] : List String).length
        ∧ ∀ u ∈ ["a", "b"], ((fun v => RemoteResponse.mk
            (if v = "a" then some [⟨"T", 1⟩] else none)) u).predictions = none →
            { imageUrl := u, predictions := [] } ∈ l) :=
  ⟨fun _ _ => rfl,
    batchPredict_one_per_url ["a", "b"] "e" "k" _ _ (fun _ _ => rfl)⟩

/-! ### Association-list lemmas for `averageByTag` -/

theorem find?_map_keyPreserving (g : String × ℚ → String × ℚ)
    (hg : ∀ e, (g e).1 = e.1) (l : List (String × ℚ)) (t : String) :
    (l.map g).find? (fun e => decide (e.1 = t))
      = (l.find? (fun e => decide (e.1 = t))).map g := by
  induction l with
  | nil => rfl
  | cons e l ih =>
    by_cases h : e.1 = t
    · rw [List.map_cons, List.find?_cons_of_pos _ (by simpa [hg] using h),
        List.find?_cons_of_pos _ (by simpa using h), Option.map_some']
    · rw [List.map_cons, List.find?_cons_of_neg _ (by simpa [hg] using h),
        List.find?_cons_of_neg _ (by simpa using h), ih]

theorem jsGetD_addToSums (sums : List (String × ℚ)) (t : String) (p : ℚ) (tag : String) :
    jsGetD (addToSums sums t p) tag 0
      = jsGetD sums tag 0 + (if tag = t then p else 0) := by
  rw [addToSums]
  by_cases hmem : sums.any (fun e => decide (e.1 = t)) = true
  · rw [if_pos hmem, jsGetD,
      find?_map_keyPreserving _ (fun e => by by_cases h : e.1 = t <;> simp [h]), jsGetD]
    cases hf : sums.find? (fun e => decide (e.1 = tag)) with
    | none =>
      have htag : ¬(tag = t) := by
        intro h
        subst h
        obtain ⟨e, he, hpe⟩ := List.any_eq_true.mp hmem
        rw [List.find?_eq_none] at hf
        exact hf e he hpe
      simp [htag]
    | some e =>
      have he : e.1 = tag := by simpa using List.find?_some hf
      by_cases h : tag = t
      · subst h
        simp [he]
      · have : ¬(e.1 = t) := he ▸ h
        simp [this, h]
  · rw [if_neg hmem, jsGetD, jsGetD]
    by_cases h : tag = t
    · subst h
      have hf : sums.find? (fun e => decide (e.1 = tag)) = none := by
        rw [List.find?_eq_none]
        intro e he hpe
        exact hmem (List.any_eq_true.mpr ⟨e, he, hpe⟩)
      rw [List.find?_append, hf]
      simp
    · rw [List.find?_append]
      cases hf : sums.find? (fun e => decide (e.1 = tag)) with
      | none => simp [Option.orElse, h, Ne.symm h]
      | some e => simp [h]

theorem jsGetD_foldl_addPrediction (preds : List Prediction)
    (sums : List (String × ℚ)) (tag : String) :
    jsGetD (preds.foldl addPrediction sums) tag 0
      = jsGetD sums tag 0
        + ((preds.filter (fun p => decide (p.tagName = tag))).map
            (fun p => p.probability)).sum := by
  induction preds generalizing sums with
  | nil => simp
  | cons p preds ih =>
    rw [List.foldl_cons, ih, addPrediction, jsGetD_addToSums, List.filter_cons]
    by_cases h : p.tagName = tag
    · simp [h]
      ring
    · have h2 : ¬(tag = p.tagName) := fun hh => h hh.symm
      simp [h, h2]

theorem jsGetD_addImage (sums : List (String × ℚ)) (img : ImagePrediction) (tag : String) :
    jsGetD (addImage sums img) tag 0 = jsGetD sums tag 0 + imageProbFor tag img := by
  rw [addImage, jsGetD_foldl_addPrediction, imageProbFor]

theorem jsGetD_foldl_addImage (l : List ImagePrediction)
    (sums : List (String × ℚ)) (tag : String) :
    jsGetD (l.foldl addImage sums) tag 0
      = jsGetD sums tag 0 + (l.map (imageProbFor tag)).sum := by
  induction l generalizing sums with
  | nil => simp
  | cons img l ih =>
    rw [List.foldl_cons, ih, jsGetD_addImage, List.map_cons, List.sum_cons]
    ring

theorem jsGetD_tagSums (perImage : List ImagePrediction) (tag : String) :
    jsGetD (tagSums perImage) tag 0 = (perImage.map (imageProbFor tag)).sum := by
  rw [tagSums, jsGetD_foldl_addImage]
  simp [jsGetD]

theorem jsGetD_averageByTag (perImage : List ImagePrediction) (tag : String) :
    jsGetD (averageByTag perImage) tag 0
      = jsGetD (tagSums perImage) tag 0 / jsDivisor perImage.length := by
  rw [averageByTag, jsGetD,
    find?_map_keyPreserving (fun e => (e.1, e.2 / jsDivisor perImage.length))
      (fun e => rfl), jsGetD]
  cases hf : (tagSums perImage).find? (fun e => decide (e.1 = tag)) with
  | none => simp
  | some e => simp

/-- C1: for every batch, the Tag Averager's output for a label `tag` is the
sum over all images of that image's probability for `tag` (0 when the image
lacks `tag`), divided by the total number of images in the batch — not by
the number of images mentioning `tag`. -/
theorem averageByTag_is_mean_over_all_images (perImage : List ImagePrediction)
    (tag : String) (h : perImage ≠ []) :
    jsGetD (averageByTag perImage) tag 0
      = (perImage.map (imageProbFor tag)).sum / (perImage.length : ℚ) := by
  rw [jsGetD_averageByTag, jsGetD_tagSums, jsDivisor,
    if_neg (fun hz => h (List.length_eq_zero.mp hz))]

/-- Witness for C1: the label `"A"` appears in only the first of two images
with probability `1/2`; its average is `1/4` (divided by 2 images), as the
theorem instantiates. -/
theorem averageByTag_is_mean_over_all_images_w :
    ([⟨"a", [⟨"A", 1/2⟩]⟩, ⟨"b", []⟩] : List ImagePrediction) ≠ [] ∧
    jsGetD (averageByTag [⟨"a", [⟨"A", 1/2⟩]⟩, ⟨"b", []⟩]) "A" 0
      = (([⟨"a", [⟨"A", 1/2⟩]⟩, ⟨"b", []⟩] : List ImagePrediction).map
          (imageProbFor "A")).sum
        / (([⟨"a", [⟨"A", 1/2⟩]⟩, ⟨"b", []⟩] : List ImagePrediction).length : ℚ) :=
  ⟨List.cons_ne_nil _ _,
    averageByTag_is_mean_over_all_images _ "A" (List.cons_ne_nil _ _)⟩

/-- C8: the Tag Averager is total on every input: the divisor it divides by
is positive on every input (in particular `jsDivisor 0 = 1`: a zero image
count is defensively replaced by 1), and the empty batch yields the empty
averages object rather than a division-by-zero failure. -/
theorem averageByTag_total (perImage : List ImagePrediction) :
    0 < jsDivisor perImage.length ∧ jsDivisor 0 = 1
      ∧ averageByTag ([] : List ImagePrediction) = [] := by
  refine ⟨?_, rfl, rfl⟩
  rw [jsDivisor]
  split
  · norm_num
  · exact_mod_cast Nat.pos_of_ne_zero ‹_›

/-! ### Theorems about the `/classify` handler: validation and failures -/

/-- C7: whenever `imageUrls` is missing, not an array, or an empty array,
`/classify` answers 400 with an error message naming `imageUrls`; the
response is the same for every configuration (in particular with missing
credentials, so no credential check is involved) and for every remote
classifier (so no downstream call can influence it). -/
theorem classify_validation (cfg : Config) (fetch : Fetch) :
    classify { imageUrls := .missing } cfg fetch
        = ⟨400, .validationError "imageUrls must be a non-empty array of URLs"⟩
    ∧ classify { imageUrls := .notArray } cfg fetch
        = ⟨400, .validationError "imageUrls must be a non-empty array of URLs"⟩
    ∧ classify { imageUrls := .array [] } cfg fetch
        = ⟨400, .validationError "imageUrls must be a non-empty array of URLs"⟩ :=
  ⟨rfl, rfl, rfl⟩

/-- C4: if any single per-image request of stage 1 fails, the whole batch
fails (first conjunct), and a failed batch makes `/classify` answer 500
with `error = "Internal server error"` and `details` carrying the remote
error payload when available, otherwise the error message (second
conjunct); no success payload — hence no averages — is produced. -/
theorem classify_upstream_failure (imageUrls : List String) (cfg : Config) (fetch : Fetch)
    (u : String) (err : RemoteError)
    (hne : imageUrls ≠ [])
    (hk1 : keyMissing cfg.modelNotModelKey = false)
    (hk2 : keyMissing cfg.civilianHybridKey = false)
    (hk3 : keyMissing cfg.superCommonKey = false)
    (hu : u ∈ imageUrls)
    (hf : fetch cfg.modelNotModelUrl (cfg.modelNotModelKey.getD "") u = .error err) :
    (∃ e, batchPredict imageUrls cfg.modelNotModelUrl (cfg.modelNotModelKey.getD "") fetch
        = .error e)
    ∧ ∀ e, batchPredict imageUrls cfg.modelNotModelUrl (cfg.modelNotModelKey.getD "") fetch
          = .error e →
        classify { imageUrls := .array imageUrls } cfg fetch
          = ⟨500, .serverError "Internal server error" (detailsOf e)⟩ := by
  refine ⟨batchPredict_error_of_mem _ _ _ _ u err hu hf, ?_⟩
  intro e he
  simp only [classify]
  rw [if_neg (fun hz => hne (List.length_eq_zero.mp hz)), hk1, hk2, hk3]
  rw [if_neg (by simp), he]

/-- Witness for C4: of two image URLs the second one's stage-1 request
fails with a remote payload `"boom"`; the batch fails and `/classify`
answers 500 with `details = "boom"`. -/
theorem classify_upstream_failure_w :
    ((["good", "bad"] : List String) ≠ []
      ∧ keyMissing (Config.mk "m" (some "k1") "c" (some "k2") "s" (some "k3")).modelNotModelKey = false
      ∧ keyMissing (Config.mk "m" (some "k1") "c" (some "k2") "s" (some "k3")).civilianHybridKey = false
      ∧ keyMissing (Config.mk "m" (some "k1") "c" (some "k2") "s" (some "k3")).superCommonKey = false
      ∧ "bad" ∈ (["good", "bad"] : List String)
      ∧ (fun _ _ v => if v = "bad" then Except.error (RemoteError.mk (some "boom") "msg")
          else Except.ok (RemoteResponse.mk none) : Fetch)
          (Config.mk "m" (some "k1") "c" (some "k2") "s" (some "k3")).modelNotModelUrl
          ((Config.mk "m" (some "k1") "c" (some "k2") "s" (some "k3")).modelNotModelKey.getD "")
          "bad"
        = .error (RemoteError.mk (some "boom") "msg"))
    ∧ ((∃ e, batchPredict ["good", "bad"]
          (Config.mk "m" (some "k1") "c" (some "k2") "s" (some "k3")).modelNotModelUrl
          ((Config.mk "m" (some "k1") "c" (some "k2") "s" (some "k3")).modelNotModelKey.getD "")
          (fun _ _ v => if v = "bad" then Except.error (RemoteError.mk (some "boom") "msg")
            else Except.ok (RemoteResponse.mk none))
          = .error e)
    ∧ ∀ e, batchPredict ["good", "bad"]
          (Config.mk "m" (some "k1") "c" (some "k2") "s" (some "k3")).modelNotModelUrl
          ((Config.mk "m" (some "k1") "c" (some "k2") "s" (some "k3")).modelNotModelKey.getD "")
          (fun _ _ v => if v = "bad" then Except.error (RemoteError.mk (some "boom") "msg")
            else Except.ok (RemoteResponse.mk none))
          = .error e →
        classify { imageUrls := .array ["good", "bad"] }
            (Config.mk "m" (some "k1") "c" (some "k2") "s" (some "k3"))
            (fun _ _ v => if v = "bad" then Except.error (RemoteError.mk (some "boom") "msg")
              else Except.ok (RemoteResponse.mk none))
          = ⟨500, .serverError "Internal server error" (detailsOf e)⟩) :=
  ⟨⟨List.cons_ne_nil _ _, rfl, rfl, rfl, by decide, rfl⟩,
    classify_upstream_failure ["good", "bad"] _ _ "bad" (RemoteError.mk (some "boom") "msg")
      (List.cons_ne_nil _ _) rfl rfl rfl (by decide) rfl⟩

/-! ### Lemmas for `getMaxLabel` -/

theorem foldl_maxStep_mono (l : List (String × ℚ)) (acc : MaxResult) :
    acc.probability ≤ (l.foldl maxStep acc).probability := by
  induction l generalizing acc with
  | nil => exact le_refl _
  | cons e l ih =>
    rw [List.foldl_cons]
    refine le_trans ?_ (ih (maxStep acc e))
    rw [maxStep]
    split
    · exact le_of_lt ‹_›
    · exact le_refl _

theorem foldl_maxStep_isMax (l : List (String × ℚ)) (acc : MaxResult) :
    ∀ e ∈ l, e.2 ≤ (l.foldl maxStep acc).probability := by
  induction l generalizing acc with
  | nil => simp
  | cons a l ih =>
    intro e he
    rw [List.foldl_cons]
    rcases List.mem_cons.mp he with h | h
    · subst h
      refine le_trans ?_ (foldl_maxStep_mono l (maxStep acc e))
      rw [maxStep]
      split
      · exact le_refl _
      · exact le_of_not_lt ‹_›
    · exact ih (maxStep acc a) e h

theorem foldl_maxStep_char (l : List (String × ℚ)) (acc : MaxResult) :
    l.foldl maxStep acc = acc
    ∨ (acc.probability < (l.foldl maxStep acc).probability
       ∧ ∃ lab, (l.foldl maxStep acc).label = some lab
         ∧ ∃ i, ∃ hi : i < l.length,
             l.get ⟨i, hi⟩ = (lab, (l.foldl maxStep acc).probability)
             ∧ ∀ j, ∀ hj : j < l.length, j < i →
                 (l.get ⟨j, hj⟩).2 < (l.foldl maxStep acc).probability) := by
  induction l generalizing acc with
  | nil => exact Or.inl rfl
  | cons e l ih =>
    rw [List.foldl_cons]
    by_cases hlt : acc.probability < e.2
    · have hstep : maxStep acc e = { label := some e.1, probability := e.2 } := by
        rw [maxStep, if_pos hlt]
      rw [hstep]
      rcases ih { label := some e.1, probability := e.2 } with h | ⟨hmono, lab, hlab, i, hi, hget, hprev⟩
      · refine Or.inr ⟨?_, e.1, ?_, 0, Nat.succ_pos _, ?_, ?_⟩
        · rw [h]
          exact hlt
        · rw [h]
        · rw [h]
          rfl
        · intro j hj hj0
          exact absurd hj0 (Nat.not_lt_zero j)
      · refine Or.inr ⟨lt_trans hlt hmono, lab, hlab, i + 1, Nat.succ_lt_succ hi, hget, ?_⟩
        intro j hj hji
        cases j with
        | zero => exact lt_of_le_of_lt (le_of_eq rfl) hmono
        | succ j => exact hprev j (Nat.lt_of_succ_lt_succ hj) (Nat.lt_of_succ_lt_succ hji)
    · have hstep : maxStep acc e = acc := by
        rw [maxStep, if_neg hlt]
      rw [hstep]
      rcases ih acc with h | ⟨hmono, lab, hlab, i, hi, hget, hprev⟩
      · exact Or.inl h
      · refine Or.inr ⟨hmono, lab, hlab, i + 1, Nat.succ_lt_succ hi, hget, ?_⟩
        intro j hj hji
        cases j with
        | zero => exact lt_of_le_of_lt (le_of_not_lt hlt) hmono
        | succ j => exact hprev j (Nat.lt_of_succ_lt_succ hj) (Nat.lt_of_succ_lt_succ hji)

/-- C3: on the empty mapping `getMaxLabel` returns the sentinel
`{ label := none, probability := -1 }`; on every non-empty
label-to-probability mapping (all values in `[0,1]`) it returns the maximum
value together with a label that maps to it, and in case of an exact tie
the first-encountered label wins: the returned entry sits at an index every
earlier index of which holds a strictly smaller value. -/
theorem getMaxLabel_spec (m : List (String × ℚ))
    (hne : m ≠ []) (hval : ∀ e ∈ m, 0 ≤ e.2 ∧ e.2 ≤ 1) :
    getMaxLabel ([] : List (String × ℚ)) = { label := none, probability := -1 }
    ∧ (∀ e ∈ m, e.2 ≤ (getMaxLabel m).probability)
    ∧ ∃ lab, (getMaxLabel m).label = some lab
        ∧ (lab, (getMaxLabel m).probability) ∈ m
        ∧ ∃ i, ∃ hi : i < m.length,
            m.get ⟨i, hi⟩ = (lab, (getMaxLabel m).probability)
            ∧ ∀ j, ∀ hj : j < m.length, j < i →
                (m.get ⟨j, hj⟩).2 < (getMaxLabel m).probability := by
  refine ⟨rfl, fun e he => foldl_maxStep_isMax m _ e he, ?_⟩
  rcases foldl_maxStep_char m { label := none, probability := -1 } with h | ⟨_, lab, hlab, i, hi, hget, hprev⟩
  · exfalso
    obtain ⟨e, he⟩ := List.exists_mem_of_ne_nil m hne
    have h1 := foldl_maxStep_isMax m { label := none, probability := -1 } e he
    rw [h] at h1
    have h0 := (hval e he).1
    simp only [MaxResult.mk.injEq] at h1
    linarith [h1]
  · refine ⟨lab, hlab, ?_, i, hi, hget, hprev⟩
    have hmem : m.get ⟨i, hi⟩ ∈ m := m.get_mem i hi
    rw [hget] at hmem
    exact hmem

/-- Witness for C3: on `[("A", 1/2), ("B", 1/2)]` the selector returns the
maximum `1/2` with the first-encountered label `"A"` (index 0). -/
theorem getMaxLabel_spec_w :
    (([("A", 1/2), ("B", 1/2)] : List (String × ℚ)) ≠ []
      ∧ ∀ e ∈ ([("A", 1/2), ("B", 1/2)] : List (String × ℚ)), 0 ≤ e.2 ∧ e.2 ≤ 1)
    ∧ (getMaxLabel ([] : List (String × ℚ)) = { label := none, probability := -1 }
    ∧ (∀ e ∈ ([("A", 1/2), ("B", 1/2)] : List (String × ℚ)),
        e.2 ≤ (getMaxLabel [("A", 1/2), ("B", 1/2)]).probability)
    ∧ ∃ lab, (getMaxLabel [("A", 1/2), ("B", 1/2)]).label = some lab
        ∧ (lab, (getMaxLabel [("A", 1/2), ("B", 1/2)]).probability)
            ∈ ([("A", 1/2), ("B", 1/2)] : List (String × ℚ))
        ∧ ∃ i, ∃ hi : i < ([("A", 1/2), ("B", 1/2)] : List (String × ℚ)).length,
            ([("A", 1/2), ("B", 1/2)] : List (String × ℚ)).get ⟨i, hi⟩
              = (lab, (getMaxLabel [("A", 1/2), ("B", 1/2)]).probability)
            ∧ ∀ j, ∀ hj : j < ([("A", 1/2), ("B", 1/2)] : List (String × ℚ)).length,
                j < i →
                (([("A", 1/2), ("B", 1/2)] : List (String × ℚ)).get ⟨j, hj⟩).2
                  < (getMaxLabel [("A", 1/2), ("B", 1/2)]).probability) :=
  ⟨⟨List.cons_ne_nil _ _, by norm_num⟩,
    getMaxLabel_spec [("A", 1/2), ("B", 1/2)] (List.cons_ne_nil _ _) (by norm_num)⟩

/-! ### The successful two-stage pipeline -/

theorem classify_success_unfold (imageUrls : List String) (cfg : Config) (fetch : Fetch)
    (s1 s2 : List ImagePrediction)
    (hne : imageUrls ≠ [])
    (hk1 : keyMissing cfg.modelNotModelKey = false)
    (hk2 : keyMissing cfg.civilianHybridKey = false)
    (hk3 : keyMissing cfg.superCommonKey = false)
    (h1 : batchPredict imageUrls cfg.modelNotModelUrl (cfg.modelNotModelKey.getD "") fetch
      = .ok s1)
    (h2 : batchPredict imageUrls
        (if decide (jsGetD (averageByTag s1) "NOT Model" 0
            ≤ jsGetD (averageByTag s1) "Model" 0)
          then cfg.superCommonUrl else cfg.civilianHybridUrl)
        (if decide (jsGetD (averageByTag s1) "NOT Model" 0
            ≤ jsGetD (averageByTag s1) "Model" 0)
          then cfg.superCommonKey.getD "" else cfg.civilianHybridKey.getD "")
        fetch = .ok s2) :
    classify { imageUrls := .array imageUrls } cfg fetch
      = ⟨200, .success
        { imageCount := imageUrls.length
          imageUrls := imageUrls
          stage1Predictor := "Model/NOT Model Predictor"
          stage1Averages := averageByTag s1
          stage1PerImage := s1
          isModel := decide (jsGetD (averageByTag s1) "NOT Model" 0
            ≤ jsGetD (averageByTag s1) "Model" 0)
          modelProbability := jsGetD (averageByTag s1) "Model" 0
          notModelProbability := jsGetD (averageByTag s1) "NOT Model" 0
          stage2Predictor :=
            if decide (jsGetD (averageByTag s1) "NOT Model" 0
                ≤ jsGetD (averageByTag s1) "Model" 0)
              then "SuperModel/Common Model Predictor" else "Civilian/Hybrid Predictor"
          branch :=
            if decide (jsGetD (averageByTag s1) "NOT Model" 0
                ≤ jsGetD (averageByTag s1) "Model" 0)
              then "SuperModelCommonModel" else "CivilianHybrid"
          stage2Averages := averageByTag s2
          stage2PerImage := s2
          finalLabel := (getMaxLabel (averageByTag s2)).label
          finalLabelProbability := (getMaxLabel (averageByTag s2)).probability
          highConfidence := decide ((95 : ℚ) / 100
            ≤ (getMaxLabel (averageByTag s2)).probability)
          confidenceThreshold := (95 : ℚ) / 100 }⟩ := by
  simp only [classify]
  rw [if_neg (fun hz => hne (List.length_eq_zero.mp hz)), hk1, hk2, hk3]
  rw [if_neg (by simp)]
  simp only [h1, h2]

/-- C2: for every stage-1 result, the branch decision is
`isModel = decide (notModelProb ≤ modelProb)` — i.e. `modelProb >= notModelProb`
with each probability read from the stage-1 averages defaulting to 0 when
absent — so an exact tie decides `isModel = true`; `isModel = true` makes
stage 2 call the SuperModel/Common endpoint with its credential and report
branch `"SuperModelCommonModel"`, `isModel = false` the Civilian/Hybrid
endpoint, credential and branch. -/
theorem classify_branch_selection (imageUrls : List String) (cfg : Config) (fetch : Fetch)
    (s1 : List ImagePrediction)
    (hne : imageUrls ≠ [])
    (hk1 : keyMissing cfg.modelNotModelKey = false)
    (hk2 : keyMissing cfg.civilianHybridKey = false)
    (hk3 : keyMissing cfg.superCommonKey = false)
    (h1 : batchPredict imageUrls cfg.modelNotModelUrl (cfg.modelNotModelKey.getD "") fetch
      = .ok s1) :
    (decide (jsGetD (averageByTag s1) "NOT Model" 0 ≤ jsGetD (averageByTag s1) "Model" 0) = true
      ↔ jsGetD (averageByTag s1) "NOT Model" 0 ≤ jsGetD (averageByTag s1) "Model" 0)
    ∧ (jsGetD (averageByTag s1) "Model" 0 = jsGetD (averageByTag s1) "NOT Model" 0 →
        decide (jsGetD (averageByTag s1) "NOT Model" 0
          ≤ jsGetD (averageByTag s1) "Model" 0) = true)
    ∧ ∀ s2, batchPredict imageUrls
          (if decide (jsGetD (averageByTag s1) "NOT Model" 0
              ≤ jsGetD (averageByTag s1) "Model" 0)
            then cfg.superCommonUrl else cfg.civilianHybridUrl)
          (if decide (jsGetD (averageByTag s1) "NOT Model" 0
              ≤ jsGetD (averageByTag s1) "Model" 0)
            then cfg.superCommonKey.getD "" else cfg.civilianHybridKey.getD "")
          fetch = .ok s2 →
        ∃ ok, classify { imageUrls := .array imageUrls } cfg fetch = ⟨200, .success ok⟩
          ∧ ok.isModel = decide (jsGetD (averageByTag s1) "NOT Model" 0
              ≤ jsGetD (averageByTag s1) "Model" 0)
          ∧ ok.branch = (if ok.isModel then "SuperModelCommonModel" else "CivilianHybrid")
          ∧ ok.stage2Predictor = (if ok.isModel
              then "SuperModel/Common Model Predictor" else "Civilian/Hybrid Predictor")
          ∧ ok.stage2PerImage = s2
          ∧ ok.modelProbability = jsGetD (averageByTag s1) "Model" 0
          ∧ ok.notModelProbability = jsGetD (averageByTag s1) "NOT Model" 0 := by
  refine ⟨by simp, fun h => decide_eq_true (le_of_eq h.symm), ?_⟩
  intro s2 h2
  exact ⟨_, classify_success_unfold imageUrls cfg fetch s1 s2 hne hk1 hk2 hk3 h1 h2,
    rfl, rfl, rfl, rfl, rfl, rfl⟩

/-- Witness for C2: one image URL whose stage-1 prediction is
`Model = 1`; the hypotheses are discharged on this concrete run. -/
theorem classify_branch_selection_w :
    ((["u"] : List String) ≠ []
      ∧ keyMissing (some "k1") = false
      ∧ keyMissing (some "k2") = false
      ∧ keyMissing (some "k3") = false
      ∧ batchPredict ["u"] "m" "k1"
          (fun _ _ _ => Except.ok (RemoteResponse.mk (some [Prediction.mk "Model" 1])))
          = .ok [ImagePrediction.mk "u" [Prediction.mk "Model" 1]])
    ∧ ((decide (jsGetD (averageByTag [ImagePrediction.mk "u" [Prediction.mk "Model" 1]]) "NOT Model" 0
          ≤ jsGetD (averageByTag [ImagePrediction.mk "u" [Prediction.mk "Model" 1]]) "Model" 0) = true
        ↔ jsGetD (averageByTag [ImagePrediction.mk "u" [Prediction.mk "Model" 1]]) "NOT Model" 0
          ≤ jsGetD (averageByTag [ImagePrediction.mk "u" [Prediction.mk "Model" 1]]) "Model" 0)
      ∧ (jsGetD (averageByTag [ImagePrediction.mk "u" [Prediction.mk "Model" 1]]) "Model" 0
            = jsGetD (averageByTag [ImagePrediction.mk "u" [Prediction.mk "Model" 1]]) "NOT Model" 0 →
          decide (jsGetD (averageByTag [ImagePrediction.mk "u" [Prediction.mk "Model" 1]]) "NOT Model" 0
            ≤ jsGetD (averageByTag [ImagePrediction.mk "u" [Prediction.mk "Model" 1]]) "Model" 0) = true)
      ∧ ∀ s2, batchPredict ["u"]
            (if decide (jsGetD (averageByTag [ImagePrediction.mk "u" [Prediction.mk "Model" 1]]) "NOT Model" 0
                ≤ jsGetD (averageByTag [ImagePrediction.mk "u" [Prediction.mk "Model" 1]]) "Model" 0)
              then "s" else "c")
            (if decide (jsGetD (averageByTag [ImagePrediction.mk "u" [Prediction.mk "Model" 1]]) "NOT Model" 0
                ≤ jsGetD (averageByTag [ImagePrediction.mk "u" [Prediction.mk "Model" 1]]) "Model" 0)
              then "k3" else "k2")
            (fun _ _ _ => Except.ok (RemoteResponse.mk (some [Prediction.mk "Model" 1])))
            = .ok s2 →
          ∃ ok, classify { imageUrls := .array ["u"] }
              (Config.mk "m" (some "k1") "c" (some "k2") "s" (some "k3"))
              (fun _ _ _ => Except.ok (RemoteResponse.mk (some [Prediction.mk "Model" 1])))
              = ⟨200, .success ok⟩
            ∧ ok.isModel = decide (jsGetD (averageByTag [ImagePrediction.mk "u" [Prediction.mk "Model" 1]]) "NOT Model" 0
                ≤ jsGetD (averageByTag [ImagePrediction.mk "u" [Prediction.mk "Model" 1]]) "Model" 0)
            ∧ ok.branch = (if ok.isModel then "SuperModelCommonModel" else "CivilianHybrid")
            ∧ ok.stage2Predictor = (if ok.isModel
                then "SuperModel/Common Model Predictor" else "Civilian/Hybrid Predictor")
            ∧ ok.stage2PerImage = s2
            ∧ ok.modelProbability
                = jsGetD (averageByTag [ImagePrediction.mk "u" [Prediction.mk "Model" 1]]) "Model" 0
            ∧ ok.notModelProbability
                = jsGetD (averageByTag [ImagePrediction.mk "u" [Prediction.mk "Model" 1]]) "NOT Model" 0) :=
  ⟨⟨List.cons_ne_nil _ _, rfl, rfl, rfl, rfl⟩,
    classify_branch_selection ["u"] (Config.mk "m" (some "k1") "c" (some "k2") "s" (some "k3"))
      (fun _ _ _ => Except.ok (RemoteResponse.mk (some [Prediction.mk "Model" 1])))
      [ImagePrediction.mk "u" [Prediction.mk "Model" 1]]
      (List.cons_ne_nil _ _) rfl rfl rfl rfl⟩

/-- C5: whenever the remote classifier succeeds on every request, `/classify`
answers 200 with the full success payload — the threshold never blocks the
response — and the returned `highConfidence` flag is exactly
`finalLabelProbability >= 0.95`, a pure annotation: the final label, its
probability and the averages are the stage-2 best-label data regardless of
the flag. -/
theorem classify_confidence_informational (imageUrls : List String) (cfg : Config)
    (fetch : Fetch)
    (hne : imageUrls ≠ [])
    (hk1 : keyMissing cfg.modelNotModelKey = false)
    (hk2 : keyMissing cfg.civilianHybridKey = false)
    (hk3 : keyMissing cfg.superCommonKey = false)
    (hfetch : ∀ e k u, ∃ r, fetch e k u = .ok r) :
    ∃ ok, classify { imageUrls := .array imageUrls } cfg fetch = ⟨200, .success ok⟩
      ∧ ok.highConfidence = decide ((95 : ℚ) / 100 ≤ ok.finalLabelProbability)
      ∧ ok.confidenceThreshold = (95 : ℚ) / 100
      ∧ ok.finalLabel = (getMaxLabel ok.stage2Averages).label
      ∧ ok.finalLabelProbability = (getMaxLabel ok.stage2Averages).probability
      ∧ ok.stage2Averages = averageByTag ok.stage2PerImage := by
  obtain ⟨s1, h1⟩ := batchPredict_ok_of_fetch_ok cfg.modelNotModelUrl
    (cfg.modelNotModelKey.getD "") fetch imageUrls (fun u _ => hfetch _ _ u)
  obtain ⟨s2, h2⟩ := batchPredict_ok_of_fetch_ok
    (if decide (jsGetD (averageByTag s1) "NOT Model" 0
        ≤ jsGetD (averageByTag s1) "Model" 0)
      then cfg.superCommonUrl else cfg.civilianHybridUrl)
    (if decide (jsGetD (averageByTag s1) "NOT Model" 0
        ≤ jsGetD (averageByTag s1) "Model" 0)
      then cfg.superCommonKey.getD "" else cfg.civilianHybridKey.getD "")
    fetch imageUrls (fun u _ => hfetch _ _ u)
  exact ⟨_, classify_success_unfold imageUrls cfg fetch s1 s2 hne hk1 hk2 hk3 h1 h2,
    rfl, rfl, rfl, rfl, rfl⟩

/-- Witness for C5: a single image, the remote classifier always answering
`T = 1`. -/
theorem classify_confidence_informational_w :
    ((["u"] : List String) ≠ []
      ∧ keyMissing (some "k1") = false
      ∧ keyMissing (some "k2") = false
      ∧ keyMissing (some "k3") = false
      ∧ ∀ e k u, ∃ r, (fun _ _ _ => Except.ok (RemoteResponse.mk (some [Prediction.mk "T" 1]))
            : Fetch) e k u = .ok r)
    ∧ ∃ ok, classify { imageUrls := .array ["u"] }
          (Config.mk "m" (some "k1") "c" (some "k2") "s" (some "k3"))
          (fun _ _ _ => Except.ok (RemoteResponse.mk (some [Prediction.mk "T" 1])))
          = ⟨200, .success ok⟩
        ∧ ok.highConfidence = decide ((95 : ℚ) / 100 ≤ ok.finalLabelProbability)
        ∧ ok.confidenceThreshold = (95 : ℚ) / 100
        ∧ ok.finalLabel = (getMaxLabel ok.stage2Averages).label
        ∧ ok.finalLabelProbability = (getMaxLabel ok.stage2Averages).probability
        ∧ ok.stage2Averages = averageByTag ok.stage2PerImage :=
  ⟨⟨List.cons_ne_nil _ _, rfl, rfl, rfl, fun _ _ _ => ⟨_, rfl⟩⟩,
    classify_confidence_informational ["u"]
      (Config.mk "m" (some "k1") "c" (some "k2") "s" (some "k3"))
      (fun _ _ _ => Except.ok (RemoteResponse.mk (some [Prediction.mk "T" 1])))
      (List.cons_ne_nil _ _) rfl rfl rfl (fun _ _ _ => ⟨_, rfl⟩)⟩

theorem averageByTag_of_all_empty :
    ∀ l : List ImagePrediction, (∀ img ∈ l, img.predictions = []) →
      averageByTag l = [] := by
  have haux : ∀ (l : List ImagePrediction) (sums : List (String × ℚ)),
      (∀ img ∈ l, img.predictions = []) → l.foldl addImage sums = sums := by
    intro l
    induction l with
    | nil => intro sums _; rfl
    | cons img l ih =>
      intro sums h
      rw [List.foldl_cons]
      have hstep : addImage sums img = sums := by
        rw [addImage, h img (List.mem_cons_self _ _)]
        rfl
      rw [hstep, ih _ (fun i hi => h i (List.mem_cons_of_mem _ hi))]
  intro l h
  rw [averageByTag, tagSums, haux l [] h]
  rfl

/-- C10: if both stages succeed but every stage-2 response carries an empty
(or absent) predictions list, the stage-2 averages objects is empty and
`/classify` still answers 200, surfacing the `getMaxLabel` sentinel in the
success payload: `finalLabel = null`, `finalLabelProbability = -1`,
`highConfidence = false`. -/
theorem classify_empty_stage2_success (imageUrls : List String) (cfg : Config)
    (fetch : Fetch)
    (hne : imageUrls ≠ [])
    (hk1 : keyMissing cfg.modelNotModelKey = false)
    (hk2 : keyMissing cfg.civilianHybridKey = false)
    (hk3 : keyMissing cfg.superCommonKey = false)
    (h1 : ∀ u ∈ imageUrls, ∃ r,
      fetch cfg.modelNotModelUrl (cfg.modelNotModelKey.getD "") u = .ok r)
    (h2s : ∀ u ∈ imageUrls, ∃ r,
      fetch cfg.superCommonUrl (cfg.superCommonKey.getD "") u = .ok r
        ∧ r.predictions.getD [] = [])
    (h2c : ∀ u ∈ imageUrls, ∃ r,
      fetch cfg.civilianHybridUrl (cfg.civilianHybridKey.getD "") u = .ok r
        ∧ r.predictions.getD [] = []) :
    ∃ ok, classify { imageUrls := .array imageUrls } cfg fetch = ⟨200, .success ok⟩
      ∧ ok.stage2Averages = []
      ∧ ok.finalLabel = none
      ∧ ok.finalLabelProbability = -1
      ∧ ok.highConfidence = false := by
  obtain ⟨s1, hs1⟩ := batchPredict_ok_of_fetch_ok cfg.modelNotModelUrl
    (cfg.modelNotModelKey.getD "") fetch imageUrls h1
  by_cases hIm : decide (jsGetD (averageByTag s1) "NOT Model" 0
      ≤ jsGetD (averageByTag s1) "Model" 0) = true
  · obtain ⟨s2, hs2, hs2e⟩ := batchPredict_ok_of_fetch_empty cfg.superCommonUrl
      (cfg.superCommonKey.getD "") fetch imageUrls h2s
    have h2sel : batchPredict imageUrls
        (if decide (jsGetD (averageByTag s1) "NOT Model" 0
            ≤ jsGetD (averageByTag s1) "Model" 0)
          then cfg.superCommonUrl else cfg.civilianHybridUrl)
        (if decide (jsGetD (averageByTag s1) "NOT Model" 0
            ≤ jsGetD (averageByTag s1) "Model" 0)
          then cfg.superCommonKey.getD "" else cfg.civilianHybridKey.getD "")
        fetch = .ok s2 := by
      rw [if_pos hIm, if_pos hIm]
      exact hs2
    have havg : averageByTag s2 = [] := averageByTag_of_all_empty s2 hs2e
    refine ⟨_, classify_success_unfold imageUrls cfg fetch s1 s2 hne hk1 hk2 hk3 hs1 h2sel,
      havg, ?_, ?_, ?_⟩
    · show (getMaxLabel (averageByTag s2)).label = none
      rw [havg]
      rfl
    · show (getMaxLabel (averageByTag s2)).probability = -1
      rw [havg]
      rfl
    · show decide ((95 : ℚ) / 100 ≤ (getMaxLabel (averageByTag s2)).probability) = false
      rw [havg]
      exact decide_eq_false (show ¬((95 : ℚ) / 100 ≤ -1) by norm_num)
  · obtain ⟨s2, hs2, hs2e⟩ := batchPredict_ok_of_fetch_empty cfg.civilianHybridUrl
      (cfg.civilianHybridKey.getD "") fetch imageUrls h2c
    have h2sel : batchPredict imageUrls
        (if decide (jsGetD (averageByTag s1) "NOT Model" 0
            ≤ jsGetD (averageByTag s1) "Model" 0)
          then cfg.superCommonUrl else cfg.civilianHybridUrl)
        (if decide (jsGetD (averageByTag s1) "NOT Model" 0
            ≤ jsGetD (averageByTag s1) "Model" 0)
          then cfg.superCommonKey.getD "" else cfg.civilianHybridKey.getD "")
        fetch = .ok s2 := by
      rw [if_neg hIm, if_neg hIm]
      exact hs2
    have havg : averageByTag s2 = [] := averageByTag_of_all_empty s2 hs2e
    refine ⟨_, classify_success_unfold imageUrls cfg fetch s1 s2 hne hk1 hk2 hk3 hs1 h2sel,
      havg, ?_, ?_, ?_⟩
    · show (getMaxLabel (averageByTag s2)).label = none
      rw [havg]
      rfl
    · show (getMaxLabel (averageByTag s2)).probability = -1
      rw [havg]
      rfl
    · show decide ((95 : ℚ) / 100 ≤ (getMaxLabel (averageByTag s2)).probability) = false
      rw [havg]
      exact decide_eq_false (show ¬((95 : ℚ) / 100 ≤ -1) by norm_num)

/-- Witness for C10: one image; stage 1 answers `Model = 1` on endpoint
`"m"`, both stage-2 endpoints answer a response with no predictions list. -/
theorem classify_empty_stage2_success_w :
    ((["u"] : List String) ≠ []
      ∧ keyMissing (some "k1") = false
      ∧ keyMissing (some "k2") = false
      ∧ keyMissing (some "k3") = false
      ∧ (∀ u ∈ (["u"] : List String), ∃ r,
          (fun e _ _ => if e = "m" then Except.ok (RemoteResponse.mk (some [Prediction.mk "Model" 1]))
            else Except.ok (RemoteResponse.mk none) : Fetch) "m" "k1" u = .ok r)
      ∧ (∀ u ∈ (["u"] : List String), ∃ r,
          (fun e _ _ => if e = "m" then Except.ok (RemoteResponse.mk (some [Prediction.mk "Model" 1]))
            else Except.ok (RemoteResponse.mk none) : Fetch) "s" "k3" u = .ok r
            ∧ r.predictions.getD [] = [])
      ∧ (∀ u ∈ (["u"] : List String), ∃ r,
          (fun e _ _ => if e = "m" then Except.ok (RemoteResponse.mk (some [Prediction.mk "Model" 1]))
            else Except.ok (RemoteResponse.mk none) : Fetch) "c" "k2" u = .ok r
            ∧ r.predictions.getD [] = []))
    ∧ ∃ ok, classify { imageUrls := .array ["u"] }
          (Config.mk "m" (some "k1") "c" (some "k2") "s" (some "k3"))
          (fun e _ _ => if e = "m" then Except.ok (RemoteResponse.mk (some [Prediction.mk "Model" 1]))
            else Except.ok (RemoteResponse.mk none))
          = ⟨200, .success ok⟩
        ∧ ok.stage2Averages = []
        ∧ ok.finalLabel = none
        ∧ ok.finalLabelProbability = -1
        ∧ ok.highConfidence = false :=
  ⟨⟨List.cons_ne_nil _ _, rfl, rfl, rfl,
      fun _ _ => ⟨RemoteResponse.mk (some [Prediction.mk "Model" 1]), rfl⟩,
      fun _ _ => ⟨RemoteResponse.mk none, rfl, rfl⟩,
      fun _ _ => ⟨RemoteResponse.mk none, rfl, rfl⟩⟩,
    classify_empty_stage2_success ["u"]
      (Config.mk "m" (some "k1") "c" (some "k2") "s" (some "k3"))
      (fun e _ _ => if e = "m" then Except.ok (RemoteResponse.mk (some [Prediction.mk "Model" 1]))
        else Except.ok (RemoteResponse.mk none))
      (List.cons_ne_nil _ _) rfl rfl rfl
      (fun _ _ => ⟨RemoteResponse.mk (some [Prediction.mk "Model" 1]), rfl⟩)
      (fun _ _ => ⟨RemoteResponse.mk none, rfl, rfl⟩)
      (fun _ _ => ⟨RemoteResponse.mk none, rfl, rfl⟩)⟩

/-! ### Bounds and key set for `averageByTag` -/

/-- Counterexample to the claim that probabilities in `[0,1]` alone keep the
averages in `[0,1]`: the sum loop adds every occurrence of a tag, so one
image listing the same tag twice with probability 1 averages to 2. -/
theorem averageByTag_bounds_cx :
    (∀ img ∈ ([⟨"u", [⟨"L", 1⟩, ⟨"L", 1⟩]⟩] : List ImagePrediction),
      ∀ p ∈ img.predictions, 0 ≤ p.probability ∧ p.probability ≤ 1)
    ∧ averageByTag [⟨"u", [⟨"L", 1⟩, ⟨"L", 1⟩]⟩] = [("L", 2)]
    ∧ ¬(∀ e ∈ averageByTag [⟨"u", [⟨"L", 1⟩, ⟨"L", 1⟩]⟩], 0 ≤ e.2 ∧ e.2 ≤ 1) := by
  have havg : averageByTag [⟨"u", [⟨"L", 1⟩, ⟨"L", 1⟩]⟩] = [("L", 2)] := by
    simp [averageByTag, tagSums, addImage, addPrediction, addToSums, jsDivisor]
    norm_num
  refine ⟨by norm_num, havg, fun hb => ?_⟩
  have := hb ("L", 2) (havg ▸ List.mem_singleton.mpr rfl)
  norm_num at this

theorem filter_eq_tag_length_le_one (tag : String) :
    ∀ preds : List Prediction, (preds.map (fun p => p.tagName)).Nodup →
      (preds.filter (fun p => decide (p.tagName = tag))).length ≤ 1 := by
  intro preds
  induction preds with
  | nil => simp
  | cons a l ih =>
    intro hnd
    rw [List.map_cons, List.nodup_cons] at hnd
    rw [List.filter_cons]
    by_cases ha : a.tagName = tag
    · have hfl : l.filter (fun p => decide (p.tagName = tag)) = [] := by
        rw [List.filter_eq_nil_iff]
        intro x hx hfx
        have hxt : x.tagName = tag := by simpa using hfx
        exact hnd.1 (ha ▸ hxt ▸ List.mem_map_of_mem (fun p => p.tagName) hx)
      simp [ha, hfl]
    · simp only [ha, decide_False, Bool.false_eq_true, if_false]
      exact ih hnd.2

theorem imageProbFor_bounds (tag : String) (img : ImagePrediction)
    (hprob : ∀ p ∈ img.predictions, 0 ≤ p.probability ∧ p.probability ≤ 1)
    (hnd : (img.predictions.map (fun p => p.tagName)).Nodup) :
    0 ≤ imageProbFor tag img ∧ imageProbFor tag img ≤ 1 := by
  rw [imageProbFor]
  rcases hfl : img.predictions.filter (fun p => decide (p.tagName = tag)) with _ | ⟨p, rest⟩
  · rw [hfl]
    norm_num
  · have hlen := filter_eq_tag_length_le_one tag img.predictions hnd
    rw [hfl] at hlen
    simp only [List.length_cons] at hlen
    have hrest : rest = [] := List.eq_nil_of_length_eq_zero (by omega)
    subst hrest
    have hp : p ∈ img.predictions := by
      refine List.mem_of_mem_filter (p := fun p => decide (p.tagName = tag)) ?_
      rw [hfl]
      exact List.mem_singleton.mpr rfl
    have := hprob p hp
    rw [hfl]
    simpa using this

theorem sum_le_length_of_bounded (l : List ℚ) (h : ∀ x ∈ l, 0 ≤ x ∧ x ≤ 1) :
    0 ≤ l.sum ∧ l.sum ≤ (l.length : ℚ) := by
  induction l with
  | nil => simp
  | cons x l ih =>
    obtain ⟨h0, h1⟩ := h x (List.mem_cons_self _ _)
    obtain ⟨ih0, ih1⟩ := ih (fun y hy => h y (List.mem_cons_of_mem _ hy))
    rw [List.sum_cons, List.length_cons]
    push_cast
    constructor <;> linarith

theorem nodup_keys_addToSums (sums : List (String × ℚ)) (t : String) (p : ℚ)
    (h : (sums.map Prod.fst).Nodup) :
    ((addToSums sums t p).map Prod.fst).Nodup := by
  rw [addToSums]
  by_cases hmem : sums.any (fun e => decide (e.1 = t)) = true
  · rw [if_pos hmem, List.map_map]
    have hfun : (Prod.fst ∘ fun e : String × ℚ => if e.1 = t then (e.1, e.2 + p) else e)
        = Prod.fst := by
      funext e
      by_cases he : e.1 = t <;> simp [he, Function.comp]
    rw [hfun]
    exact h
  · rw [if_neg hmem, List.map_append, List.nodup_append]
    refine ⟨h, List.nodup_singleton _, ?_⟩
    intro x hx hx1
    have hxt : x = t := by simpa using hx1
    obtain ⟨e, he, het⟩ := List.mem_map.mp hx
    exact hmem (List.any_eq_true.mpr ⟨e, he, by simp [het, hxt]⟩)

theorem nodup_keys_foldl_addPrediction (preds : List Prediction) :
    ∀ sums : List (String × ℚ), (sums.map Prod.fst).Nodup →
      ((preds.foldl addPrediction sums).map Prod.fst).Nodup := by
  induction preds with
  | nil => exact fun _ h => h
  | cons q preds ih =>
    intro sums h
    rw [List.foldl_cons]
    exact ih _ (nodup_keys_addToSums sums q.tagName q.probability h)

theorem nodup_keys_tagSums (perImage : List ImagePrediction) :
    ((tagSums perImage).map Prod.fst).Nodup := by
  rw [tagSums]
  have haux : ∀ (l : List ImagePrediction) (sums : List (String × ℚ)),
      (sums.map Prod.fst).Nodup → ((l.foldl addImage sums).map Prod.fst).Nodup := by
    intro l
    induction l with
    | nil => exact fun _ h => h
    | cons img l ih =>
      intro sums h
      rw [List.foldl_cons]
      exact ih _ (nodup_keys_foldl_addPrediction img.predictions sums h)
  exact haux perImage [] (by simp)

theorem find?_self_of_nodup_keys :
    ∀ (m : List (String × ℚ)) (e : String × ℚ), (m.map Prod.fst).Nodup → e ∈ m →
      m.find? (fun x => decide (x.1 = e.1)) = some e := by
  intro m
  induction m with
  | nil => intro e _ he; cases he
  | cons a m ih =>
    intro e hnd he
    rw [List.map_cons, List.nodup_cons] at hnd
    rcases List.mem_cons.mp he with h | h
    · rw [h]
      exact List.find?_cons_of_pos _ (by simp)
    · have hne : ¬(a.1 = e.1) := by
        intro hh
        exact hnd.1 (hh ▸ List.mem_map_of_mem Prod.fst h)
      rw [List.find?_cons_of_neg _ (by simpa using hne)]
      exact ih e hnd.2 h

theorem mem_keys_addToSums (sums : List (String × ℚ)) (t : String) (p : ℚ) (tag : String) :
    (∃ e ∈ addToSums sums t p, e.1 = tag) ↔ (∃ e ∈ sums, e.1 = tag) ∨ tag = t := by
  rw [addToSums]
  by_cases hmem : sums.any (fun e => decide (e.1 = t)) = true
  · rw [if_pos hmem]
    constructor
    · rintro ⟨e, he, hetag⟩
      obtain ⟨x, hx, hxe⟩ := List.mem_map.mp he
      refine Or.inl ⟨x, hx, ?_⟩
      rw [← hetag, ← hxe]
      by_cases hxt : x.1 = t <;> simp [hxt]
    · rintro (⟨e, he, hetag⟩ | htag)
      · refine ⟨_, List.mem_map_of_mem _ he, ?_⟩
        show (if e.1 = t then (e.1, e.2 + p) else e).1 = tag
        by_cases hxt : e.1 = t
        · rw [if_pos hxt]
          exact hetag
        · rw [if_neg hxt]
          exact hetag
      · obtain ⟨e, he, hpe⟩ := List.any_eq_true.mp hmem
        have het : e.1 = t := by simpa using hpe
        refine ⟨_, List.mem_map_of_mem _ he, ?_⟩
        simp [het, htag]
  · rw [if_neg hmem]
    constructor
    · rintro ⟨e, he, hetag⟩
      rcases List.mem_append.mp he with h | h
      · exact Or.inl ⟨e, h, hetag⟩
      · have hept : e = (t, p) := by simpa using h
        right
        rw [← hetag, hept]
    · rintro (⟨e, he, hetag⟩ | htag)
      · exact ⟨e, List.mem_append_left _ he, hetag⟩
      · exact ⟨(t, p), List.mem_append_right _ (by simp), htag.symm⟩

theorem mem_keys_foldl_addPrediction (preds : List Prediction) :
    ∀ (sums : List (String × ℚ)) (tag : String),
      (∃ e ∈ preds.foldl addPrediction sums, e.1 = tag)
        ↔ (∃ e ∈ sums, e.1 = tag) ∨ ∃ q ∈ preds, q.tagName = tag := by
  induction preds with
  | nil => simp
  | cons q preds ih =>
    intro sums tag
    rw [List.foldl_cons]
    have hstep : addPrediction sums q = addToSums sums q.tagName q.probability := rfl
    rw [hstep, ih, mem_keys_addToSums]
    constructor
    · rintro ((h | h) | h)
      · exact Or.inl h
      · exact Or.inr ⟨q, List.mem_cons_self _ _, h.symm⟩
      · obtain ⟨x, hx, hxt⟩ := h
        exact Or.inr ⟨x, List.mem_cons_of_mem _ hx, hxt⟩
    · rintro (h | ⟨x, hx, hxt⟩)
      · exact Or.inl (Or.inl h)
      · rcases List.mem_cons.mp hx with hh | hh
        · exact Or.inl (Or.inr (hh ▸ hxt).symm)
        · exact Or.inr ⟨x, hh, hxt⟩

theorem mem_keys_tagSums (perImage : List ImagePrediction) (tag : String) :
    (∃ e ∈ tagSums perImage, e.1 = tag)
      ↔ ∃ img ∈ perImage, ∃ q ∈ img.predictions, q.tagName = tag := by
  rw [tagSums]
  have haux : ∀ (l : List ImagePrediction) (sums : List (String × ℚ)),
      (∃ e ∈ l.foldl addImage sums, e.1 = tag)
        ↔ (∃ e ∈ sums, e.1 = tag) ∨ ∃ img ∈ l, ∃ q ∈ img.predictions, q.tagName = tag := by
    intro l
    induction l with
    | nil => simp
    | cons img l ih =>
      intro sums
      rw [List.foldl_cons]
      have hstep : addImage sums img = img.predictions.foldl addPrediction sums := rfl
      rw [ih, hstep, mem_keys_foldl_addPrediction]
      constructor
      · rintro ((h | h) | h)
        · exact Or.inl h
        · exact Or.inr ⟨img, List.mem_cons_self _ _, h⟩
        · obtain ⟨i, hi, hq⟩ := h
          exact Or.inr ⟨i, List.mem_cons_of_mem _ hi, hq⟩
      · rintro (h | ⟨i, hi, hq⟩)
        · exact Or.inl (Or.inl h)
        · rcases List.mem_cons.mp hi with hh | hh
          · exact Or.inl (Or.inr (hh ▸ hq))
          · exact Or.inr ⟨i, hh, hq⟩
  rw [haux perImage []]
  simp

/-- C9 (amended): if every probability is in `[0,1]` *and* each image's
predictions carry pairwise-distinct tag names, then every value of the Tag
Averager's output is in `[0,1]`; and — with no extra hypothesis needed —
the output's keys are exactly the labels appearing in at least one image's
predictions (a label seen nowhere is absent, not mapped to 0). -/
theorem averageByTag_bounds_and_keys (perImage : List ImagePrediction)
    (hprob : ∀ img ∈ perImage, ∀ p ∈ img.predictions,
      0 ≤ p.probability ∧ p.probability ≤ 1)
    (hnd : ∀ img ∈ perImage, (img.predictions.map (fun p => p.tagName)).Nodup) :
    (∀ e ∈ averageByTag perImage, 0 ≤ e.2 ∧ e.2 ≤ 1)
    ∧ ∀ tag, (∃ e ∈ averageByTag perImage, e.1 = tag)
        ↔ ∃ img ∈ perImage, ∃ q ∈ img.predictions, q.tagName = tag := by
  have hkeys : ∀ tag, (∃ e ∈ averageByTag perImage, e.1 = tag)
      ↔ ∃ e ∈ tagSums perImage, e.1 = tag := by
    intro tag
    rw [averageByTag]
    constructor
    · rintro ⟨e, he, het⟩
      obtain ⟨x, hx, hxe⟩ := List.mem_map.mp he
      exact ⟨x, hx, by rw [← het, ← hxe]⟩
    · rintro ⟨x, hx, hxt⟩
      exact ⟨_, List.mem_map_of_mem _ hx, hxt⟩
  constructor
  · intro e he
    rw [averageByTag] at he
    obtain ⟨s, hs, hse⟩ := List.mem_map.mp he
    have hfind := find?_self_of_nodup_keys (tagSums perImage) s
      (nodup_keys_tagSums perImage) hs
    have hjs : jsGetD (tagSums perImage) s.1 0 = s.2 := by
      rw [jsGetD, hfind]
    have htotal : s.2 = (perImage.map (imageProbFor s.1)).sum := by
      rw [← hjs, jsGetD_tagSums]
    have hne : perImage ≠ [] := by
      intro hnil
      rw [hnil] at hs
      simp [tagSums] at hs
    have hlenpos : 0 < perImage.length := List.length_pos.mpr hne
    have hdiv : jsDivisor perImage.length = (perImage.length : ℚ) := by
      rw [jsDivisor, if_neg (Nat.pos_iff_ne_zero.mp hlenpos)]
    have hbounds : 0 ≤ (perImage.map (imageProbFor s.1)).sum
        ∧ (perImage.map (imageProbFor s.1)).sum
            ≤ ((perImage.map (imageProbFor s.1)).length : ℚ) := by
      apply sum_le_length_of_bounded
      intro x hx
      obtain ⟨img, himg, hximg⟩ := List.mem_map.mp hx
      rw [← hximg]
      exact imageProbFor_bounds s.1 img (hprob img himg) (hnd img himg)
    rw [← hse]
    constructor
    · show (0 : ℚ) ≤ s.2 / jsDivisor perImage.length
      rw [htotal, hdiv]
      exact div_nonneg hbounds.1 (Nat.cast_nonneg _)
    · show s.2 / jsDivisor perImage.length ≤ 1
      rw [htotal, hdiv, div_le_one (by exact_mod_cast hlenpos)]
      have hb := hbounds.2
      rwa [List.length_map] at hb
  · exact fun tag => (hkeys tag).trans (mem_keys_tagSums perImage tag)

/-- Witness for the amended C9: one image with a single prediction
`L = 1/2`; hypotheses hold and the average for `L` is `1/2 ∈ [0,1]`. -/
theorem averageByTag_bounds_and_keys_w :
    ((∀ img ∈ ([⟨"a", [⟨"L", 1/2⟩]⟩] : List ImagePrediction),
        ∀ p ∈ img.predictions, 0 ≤ p.probability ∧ p.probability ≤ 1)
      ∧ ∀ img ∈ ([⟨"a", [⟨"L", 1/2⟩]⟩] : List ImagePrediction),
          (img.predictions.map (fun p => p.tagName)).Nodup)
    ∧ ((∀ e ∈ averageByTag [⟨"a", [⟨"L", 1/2⟩]⟩], 0 ≤ e.2 ∧ e.2 ≤ 1)
      ∧ ∀ tag, (∃ e ∈ averageByTag [⟨"a", [⟨"L", 1/2⟩]⟩], e.1 = tag)
          ↔ ∃ img ∈ ([⟨"a", [⟨"L", 1/2⟩]⟩] : List ImagePrediction),
              ∃ q ∈ img.predictions, q.tagName = tag) :=
  ⟨⟨by norm_num, by simp⟩,
    averageByTag_bounds_and_keys [⟨"a", [⟨"L", 1/2⟩]⟩] (by norm_num) (by simp)⟩
